import Mathlib

/-!
Shallow embedding of `src/black/report.py` (result aggregation and summary
rendering for the Black reformatter): the `Changed` enum, the `Report`
(human summary) and `JunitReport` (JUnit XML) accumulators, their
record operations, exit-code computation, and renderings.

Console output performed through the external `out`/`err` sinks is elided;
all other state is modelled exactly.  Terminal styling produced by the
external `click.style` helper is embedded as the ANSI escape sequences it
emits for the argument combinations used by the source.
-/

namespace Black

/-- The `Changed` enum from `report.py` (`NO = 0`, `CACHED = 1`, `YES = 2`). -/
inductive Changed where
  | NO
  | CACHED
  | YES
deriving DecidableEq, Repr

/-- ANSI rendering of the external `click.style(text, ...)` call for the
shapes used in `report.py`: an optional foreground color (by numeric ANSI
code: blue is 34, red is 31) and an optional bold flag.  `click` emits the
color escape first, then the bold escape, then the text, then the reset
escape. -/
def styleCode (fg : Option Nat) (bold : Bool) (text : String) : String :=
  (match fg with
   | some c => "\x1b[" ++ toString c ++ "m"
   | none => "") ++
  (if bold then "\x1b[1m" else "") ++ text ++ "\x1b[0m"

/-- The `Report` dataclass: four configuration flags and three counters.
Paths are modelled as strings. -/
structure Report where
  check : Bool
  diff : Bool
  quiet : Bool
  verbose : Bool
  change_count : Nat
  same_count : Nat
  failure_count : Nat
deriving DecidableEq, Repr

/-- A freshly constructed `Report` with the given flags (counters default
to zero as in the dataclass). -/
def mkReport (check diff quiet verbose : Bool) : Report :=
  ⟨check, diff, quiet, verbose, 0, 0, 0⟩

/-- `Report.done`: increments `change_count` for a `Changed.YES` outcome and
`same_count` otherwise.  The messages written to the console are elided. -/
def Report.done (r : Report) (_src : String) (changed : Changed) : Report :=
  if changed = Changed.YES then
    { r with change_count := r.change_count + 1 }
  else
    { r with same_count := r.same_count + 1 }

/-- `Report.failed`: increments `failure_count` (the error message goes to
the console sink, which is elided). -/
def Report.failed (r : Report) (_src _message : String) : Report :=
  { r with failure_count := r.failure_count + 1 }

/-- `Report.path_ignored`: only writes a console message when verbose;
no state change. -/
def Report.path_ignored (r : Report) (_path _message : String) : Report :=
  r

/-- `Report.return_code`: 123 on any failure, else 1 when a change was
seen in check mode, else 0. -/
def Report.return_code (r : Report) : Nat :=
  if r.failure_count ≠ 0 then 123
  else if r.change_count ≠ 0 ∧ r.check then 1
  else 0

/-- `Report.__str__`: the colorized one-sentence summary. -/
def Report.render (r : Report) : String :=
  let reformatted := if r.check || r.diff then "would be reformatted" else "reformatted"
  let unchanged := if r.check || r.diff then "would be left unchanged" else "left unchanged"
  let failed := if r.check || r.diff then "would fail to reformat" else "failed to reformat"
  let report : List String :=
    (if r.change_count ≠ 0 then
      [styleCode (some 34) true
          (toString r.change_count ++ " file"
            ++ (if r.change_count > 1 then "s" else "") ++ " ")
        ++ styleCode none true reformatted]
    else []) ++
    (if r.same_count ≠ 0 then
      [styleCode (some 34) false
          (toString r.same_count ++ " file"
            ++ (if r.same_count > 1 then "s" else "") ++ " ")
        ++ unchanged]
    else []) ++
    (if r.failure_count ≠ 0 then
      [styleCode (some 31) false
          (toString r.failure_count ++ " file"
            ++ (if r.failure_count > 1 then "s" else "") ++ " " ++ failed)]
    else [])
  String.intercalate ", " report ++ "."

/-- The `JunitReport` dataclass: flags, counters, and the ordered list of
appended test-case fragments. -/
structure JunitReport where
  check : Bool
  diff : Bool
  quiet : Bool
  verbose : Bool
  change_count : Nat
  same_count : Nat
  skipped_count : Nat
  failure_count : Nat
  error_count : Nat
  tests : List String
deriving DecidableEq, Repr

/-- A freshly constructed `JunitReport` with the given flags. -/
def mkJunitReport (check diff quiet verbose : Bool) : JunitReport :=
  ⟨check, diff, quiet, verbose, 0, 0, 0, 0, 0, []⟩

/-- The `BODY` template, with the placeholder substitution of
`BODY.format(failed=..., errors=..., skipped=..., combined=..., tests=...)`
applied. -/
def JunitReport.BODY (failed errors skipped combined tests : String) : String :=
  "<?xml version=\"1.0\" encoding=\"utf-8\"?>\n<testsuite failures=\"" ++ failed
    ++ "\" errors=\"" ++ errors ++ "\" name=\"black\"\nskipped=\"" ++ skipped
    ++ "\" tests=\"" ++ combined ++ "\">\n" ++ tests ++ "</testsuite>"

/-- The `PASS_MSG` template.  It has a `file` placeholder only: the `msg`
keyword passed at the call sites is discarded by `format`, which this
embedding mirrors by ignoring the second argument. -/
def JunitReport.PASS_MSG (file : String) (_msg : String) : String :=
  "\t<testcase classname=\"black\" file=\"" ++ file
    ++ "\"\n    name=\"black-" ++ file ++ "\"></testcase>\n"

/-- The `SKIP_MSG` template with `file` and `msg` substituted. -/
def JunitReport.SKIP_MSG (file msg : String) : String :=
  "\t<testcase classname=\"black\" file=\"" ++ file
    ++ "\"\n    name=\"black-" ++ file
    ++ "\">\n            <skipped message=\"" ++ msg
    ++ "\" />\n    </testcase>\n"

/-- The `FAIL_MSG` template with `file` and `msg` substituted. -/
def JunitReport.FAIL_MSG (file msg : String) : String :=
  "\t<testcase classname=\"black\" file=\"" ++ file
    ++ "\"\n    name=\"black-" ++ file
    ++ "\">\n            <failure message=\"" ++ msg
    ++ "\" />\n    </testcase>\n"

/-- The `ERROR_MSG` template with `file` and `msg` substituted. -/
def JunitReport.ERROR_MSG (file msg : String) : String :=
  "\t<testcase classname=\"black\" file=\"" ++ file
    ++ "\"\n    name=\"black-" ++ file
    ++ "\">\n            <error message=\"" ++ msg
    ++ "\" />\n    </testcase>\n"

/-- `JunitReport.done`: for `YES`, sets `change_count` to 1 and (unless
quiet and not verbose) appends a failure fragment whose message is just the
verb; otherwise sets `same_count` to 1 and always appends a pass fragment
(the computed message is passed to the template, which discards it). -/
def JunitReport.done (j : JunitReport) (src : String) (changed : Changed) :
    JunitReport :=
  if changed = Changed.YES then
    let reformatted := if j.check || j.diff then "would reformat" else "reformatted"
    if j.verbose || !j.quiet then
      { j with tests := j.tests ++ [JunitReport.FAIL_MSG src reformatted],
               change_count := 1 }
    else
      { j with change_count := 1 }
  else
    if changed = Changed.NO then
      { j with same_count := 1,
               tests := j.tests ++
                 [JunitReport.PASS_MSG src (src ++ " already well formatted, good job.")] }
    else
      { j with same_count := 1,
               tests := j.tests ++
                 [JunitReport.PASS_MSG src
                   (src ++ " wasn\x27t modified on disk since last run.")] }

/-- `JunitReport.failed`: appends an error fragment and sets
`failure_count` to 1. -/
def JunitReport.failed (j : JunitReport) (src message : String) : JunitReport :=
  { j with failure_count := 1,
           tests := j.tests ++
             [JunitReport.ERROR_MSG src
               ("error: cannot format " ++ src ++ ": " ++ message)] }

/-- `JunitReport.path_ignored`: when verbose, appends a skipped fragment and
increments `skipped_count`; otherwise does nothing. -/
def JunitReport.path_ignored (j : JunitReport) (path message : String) : JunitReport :=
  if j.verbose then
    { j with skipped_count := j.skipped_count + 1,
             tests := j.tests ++
               [JunitReport.SKIP_MSG path (path ++ " ignored: " ++ message)] }
  else j

/-- `JunitReport.return_code`: same rule as `Report.return_code`. -/
def JunitReport.return_code (j : JunitReport) : Nat :=
  if j.failure_count ≠ 0 then 123
  else if j.change_count ≠ 0 ∧ j.check then 1
  else 0

/-- `JunitReport.__str__`: the full JUnit XML document. -/
def JunitReport.render (j : JunitReport) : String :=
  let combined_tests :=
    j.change_count + j.same_count + j.failure_count + j.skipped_count
  JunitReport.BODY (toString j.change_count) (toString j.failure_count)
    (toString j.skipped_count) (toString combined_tests) (String.join j.tests)

/-- `JunitReport.summary`: the human-readable sentence (changed clause bold,
unchanged clause plain, failed clause red). -/
def JunitReport.summary (j : JunitReport) : String :=
  let reformatted := if j.check || j.diff then "would be reformatted" else "reformatted"
  let unchanged := if j.check || j.diff then "would be left unchanged" else "left unchanged"
  let failed := if j.check || j.diff then "would fail to reformat" else "failed to reformat"
  let report : List String :=
    (if j.change_count ≠ 0 then
      [styleCode none true
          (toString j.change_count ++ " file"
            ++ (if j.change_count > 1 then "s" else "") ++ " " ++ reformatted)]
    else []) ++
    (if j.same_count ≠ 0 then
      [toString j.same_count ++ " file"
        ++ (if j.same_count > 1 then "s" else "") ++ " " ++ unchanged]
    else []) ++
    (if j.failure_count ≠ 0 then
      [styleCode (some 31) false
          (toString j.failure_count ++ " file"
            ++ (if j.failure_count > 1 then "s" else "") ++ " " ++ failed)]
    else [])
  String.intercalate ", " report ++ "."

/-- One call of the shared record capability set, for reasoning about call
sequences. -/
inductive Call where
  | done (src : String) (changed : Changed)
  | failed (src : String) (message : String)
  | path_ignored (path : String) (message : String)
deriving DecidableEq, Repr

/-- Whether a call is a `failed` (record-failure) call. -/
def Call.isFailed : Call → Bool
  | .failed _ _ => true
  | _ => false

/-- Whether a call is a `done` (record-outcome) call. -/
def Call.isDone : Call → Bool
  | .done _ _ => true
  | _ => false

/-- Whether a call is a `path_ignored` (record-ignored) call. -/
def Call.isIgnored : Call → Bool
  | .path_ignored _ _ => true
  | _ => false

/-- Dispatch one call on a `Report`. -/
def Report.step (r : Report) : Call → Report
  | .done src c => r.done src c
  | .failed src m => r.failed src m
  | .path_ignored p m => r.path_ignored p m

/-- Run a sequence of calls on a `Report`, left to right. -/
def Report.run (r : Report) : List Call → Report
  | [] => r
  | c :: cs => (r.step c).run cs

/-- Dispatch one call on a `JunitReport`. -/
def JunitReport.step (j : JunitReport) : Call → JunitReport
  | .done src c => j.done src c
  | .failed src m => j.failed src m
  | .path_ignored p m => j.path_ignored p m

/-- Run a sequence of calls on a `JunitReport`, left to right. -/
def JunitReport.run (j : JunitReport) : List Call → JunitReport
  | [] => j
  | c :: cs => (j.step c).run cs

/-- Scanner state transition for ANSI escapes: state `true` means we are
inside an escape sequence (entered at ESC, left at the letter m). -/
def ansiStep (b : Bool) (c : Char) : Bool :=
  bif b then !(c == 'm') else c == '\x1b'

/-- Scanner state after a whole character list. -/
def ansiState (b : Bool) (l : List Char) : Bool :=
  l.foldl ansiStep b

/-- The characters the ANSI stripper keeps for one input character. -/
def ansiEmit (b : Bool) (c : Char) : List Char :=
  if b = false ∧ ¬ c = '\x1b' then [c] else []

/-- Strip ANSI escape spans from a character list, starting in state b. -/
def stripAnsiAux : Bool → List Char → List Char
  | _, [] => []
  | b, c :: cs => ansiEmit b c ++ stripAnsiAux (ansiStep b c) cs

/-- Strip ANSI escape spans (ESC ... m) from a string, leaving the plain
text, as the external click.unstyle does for click-styled output. -/
def stripAnsi (s : String) : String :=
  ⟨stripAnsiAux false s.data⟩

/-- A string containing no ESC character. -/
def noEsc (s : String) : Prop :=
  ∀ c ∈ s.data, ¬ c = '\x1b'

/-- A string all of whose escape sequences are closed. -/
def ansiClosed (s : String) : Prop :=
  ansiState false s.data = false

/-- Decidability of the noEsc predicate, by scanning the string. -/
instance (s : String) : Decidable (noEsc s) :=
  inferInstanceAs (Decidable (∀ c ∈ s.data, ¬ c = '\x1b'))

/-- Exit-code rule as the spec words it: a pure function of the failure and
change counters and the check flag, with failure dominating. -/
def specExitCode (failure_count change_count : Nat) (check : Bool) : Nat :=
  if failure_count > 0 then 123
  else if change_count > 0 ∧ check then 1
  else 0

/-- One clause of the summary sentence as the spec words it: the counter
pluralized as 1 file versus N files, then the verb phrase. -/
def specClause (n : Nat) (verb : String) : String :=
  (if n = 1 then "1 file" else toString n ++ " files") ++ " " ++ verb

/-- The summary sentence as the spec words it: up to three clauses in the
fixed order changed, unchanged, failed, comma-joined, clauses with zero
counters omitted, verb phrases selected by check or diff mode, ending with
a period. -/
def specSentence (check diff : Bool) (changed unchanged failed : Nat) : String :=
  let rv := if check || diff then "would be reformatted" else "reformatted"
  let uv := if check || diff then "would be left unchanged" else "left unchanged"
  let fv := if check || diff then "would fail to reformat" else "failed to reformat"
  String.intercalate ", "
    ((if changed ≠ 0 then [specClause changed rv] else []) ++
     (if unchanged ≠ 0 then [specClause unchanged uv] else []) ++
     (if failed ≠ 0 then [specClause failed fv] else [])) ++ "."

/-- The JUnit document as the spec words it: one testsuite element whose
failures attribute is the changed counter, errors the failure counter,
skipped the skipped counter, tests the sum of all four, and whose body is
the concatenation of the appended fragments in append order. -/
def specTestsuite (changed unchanged failure skipped : Nat)
    (fragments : List String) : String :=
  "<?xml version=\"1.0\" encoding=\"utf-8\"?>\n<testsuite failures=\""
    ++ toString changed ++ "\" errors=\"" ++ toString failure
    ++ "\" name=\"black\"\nskipped=\"" ++ toString skipped
    ++ "\" tests=\"" ++ toString (changed + unchanged + failure + skipped)
    ++ "\">\n" ++ String.join fragments ++ "</testsuite>"

/-- The suffix of a character list just after the first occurrence of the
marker, if any. -/
def findAfter (marker : List Char) : List Char → Option (List Char)
  | [] => none
  | c :: cs =>
    if marker.isPrefixOf (c :: cs) then some ((c :: cs).drop marker.length)
    else findAfter marker cs

/-- The prefix of a character list up to the first double quote. -/
def takeUntilQuote : List Char → List Char
  | [] => []
  | c :: cs => if c = '\x22' then [] else c :: takeUntilQuote cs

/-- The text of the message attribute of the failure child of a test-case
fragment in the JUnit document: the characters between the failure
message opening quote and the following quote. -/
def failureMessageOf (frag : String) : String :=
  match findAfter "<failure message=\x22".data frag.data with
  | some rest => ⟨takeUntilQuote rest⟩
  | none => ""


end Black

namespace Black

theorem ansiState_append (b : Bool) (l₁ l₂ : List Char) :
    ansiState b (l₁ ++ l₂) = ansiState (ansiState b l₁) l₂ :=
  List.foldl_append ansiStep b l₁ l₂

theorem stripAnsiAux_append (l₁ l₂ : List Char) (b : Bool) :
    stripAnsiAux b (l₁ ++ l₂) =
      stripAnsiAux b l₁ ++ stripAnsiAux (ansiState b l₁) l₂ := by
  induction l₁ generalizing b with
  | nil => simp [stripAnsiAux, ansiState]
  | cons c cs ih => simp [stripAnsiAux, ansiState, ih, List.append_assoc]

theorem stripAnsiAux_of_noEsc (l : List Char) (h : ∀ c ∈ l, ¬ c = '\x1b') :
    stripAnsiAux false l = l := by
  induction l with
  | nil => rfl
  | cons c cs ih =>
    have hc : ¬ c = '\x1b' := h c (List.mem_cons_self c cs)
    have hstep : ansiStep false c = false := by
      simp [ansiStep, hc]
    have hemit : ansiEmit false c = [c] := by
      simp [ansiEmit, hc]
    simp [stripAnsiAux, hstep, hemit,
      ih (fun x hx => h x (List.mem_cons_of_mem c hx))]

theorem ansiState_of_noEsc (l : List Char) (h : ∀ c ∈ l, ¬ c = '\x1b') :
    ansiState false l = false := by
  induction l with
  | nil => rfl
  | cons c cs ih =>
    have hc : ¬ c = '\x1b' := h c (List.mem_cons_self c cs)
    have hstep : ansiStep false c = false := by
      simp [ansiStep, hc]
    simp only [ansiState, List.foldl_cons, hstep]
    exact ih (fun x hx => h x (List.mem_cons_of_mem c hx))

theorem stripAnsi_of_noEsc (s : String) (h : noEsc s) : stripAnsi s = s := by
  apply String.ext
  exact stripAnsiAux_of_noEsc s.data h

theorem ansiClosed_of_noEsc (s : String) (h : noEsc s) : ansiClosed s :=
  ansiState_of_noEsc s.data h

theorem ansiClosed_append (s t : String) (hs : ansiClosed s)
    (ht : ansiClosed t) : ansiClosed (s ++ t) := by
  unfold ansiClosed at *
  rw [String.data_append, ansiState_append, hs, ht]

theorem stripAnsi_append (s t : String) (hs : ansiClosed s) :
    stripAnsi (s ++ t) = stripAnsi s ++ stripAnsi t := by
  apply String.ext
  show stripAnsiAux false (s ++ t).data = (stripAnsi s ++ stripAnsi t).data
  rw [String.data_append, String.data_append, stripAnsiAux_append]
  rw [show ansiState false s.data = false from hs]
  rfl

theorem stripAnsiAux_true_of_noM (l : List Char) (h : ∀ c ∈ l, ¬ c = 'm') :
    stripAnsiAux true l = [] ∧ ansiState true l = true := by
  induction l with
  | nil => exact ⟨rfl, rfl⟩
  | cons c cs ih =>
    have hc : ¬ c = 'm' := h c (List.mem_cons_self c cs)
    have hstep : ansiStep true c = true := by
      simp [ansiStep, hc]
    have ih2 := ih (fun x hx => h x (List.mem_cons_of_mem c hx))
    constructor
    · simp [stripAnsiAux, hstep, ansiEmit, ih2.1]
    · simp only [ansiState, List.foldl_cons, hstep]
      exact ih2.2

end Black

namespace Black

theorem digitChar_ok (n : Nat) :
    ¬ Nat.digitChar n = '\x1b' ∧ ¬ Nat.digitChar n = 'm' := by
  rcases Nat.lt_or_ge n 16 with h | h
  · interval_cases n <;> exact ⟨by decide, by decide⟩
  · have hstar : Nat.digitChar n = '*' := by
      unfold Nat.digitChar
      repeat rw [if_neg (by omega)]
    rw [hstar]
    exact ⟨by decide, by decide⟩

theorem toDigitsCore_ok (b : Nat) :
    ∀ (fuel n : Nat) (ds : List Char),
      (∀ c ∈ ds, ¬ c = '\x1b' ∧ ¬ c = 'm') →
      ∀ c ∈ Nat.toDigitsCore b fuel n ds, ¬ c = '\x1b' ∧ ¬ c = 'm' := by
  intro fuel
  induction fuel with
  | zero => intro n ds hds; simpa [Nat.toDigitsCore] using hds
  | succ fuel ih =>
    intro n ds hds c hc
    rw [Nat.toDigitsCore] at hc
    split at hc
    · rcases List.mem_cons.mp hc with h | h
      · subst h; exact digitChar_ok _
      · exact hds c h
    · refine ih (n / b) (Nat.digitChar (n % b) :: ds) ?_ c hc
      intro x hx
      rcases List.mem_cons.mp hx with h | h
      · subst h; exact digitChar_ok _
      · exact hds x h

theorem repr_ok (n : Nat) :
    ∀ c ∈ (Nat.repr n).data, ¬ c = '\x1b' ∧ ¬ c = 'm' := by
  intro c hc
  have h0 : (Nat.repr n).data = Nat.toDigits 10 n := rfl
  rw [h0] at hc
  exact toDigitsCore_ok 10 (n + 1) n [] (by intro x hx; cases hx) c hc

theorem noEsc_toString (n : Nat) : noEsc (toString n) :=
  fun c hc => (repr_ok n c hc).1

theorem stripAnsiAux_true_append_m (l : List Char) (h : ∀ c ∈ l, ¬ c = 'm') :
    stripAnsiAux true (l ++ ['m']) = [] ∧ ansiState true (l ++ ['m']) = false := by
  obtain ⟨h1, h2⟩ := stripAnsiAux_true_of_noM l h
  constructor
  · rw [stripAnsiAux_append, h1, h2]
    simp [stripAnsiAux, ansiEmit, ansiStep]
  · rw [ansiState_append, h2]
    simp [ansiState, ansiStep]

theorem stripAnsi_escape (code : String) (h : ∀ c ∈ code.data, ¬ c = 'm') :
    stripAnsi ("\x1b[" ++ code ++ "m") = "" ∧
      ansiClosed ("\x1b[" ++ code ++ "m") := by
  obtain ⟨h1, h2⟩ := stripAnsiAux_true_append_m code.data h
  have hdata : ("\x1b[" ++ code ++ "m").data =
      '\x1b' :: '[' :: (code.data ++ ['m']) := by
    rw [String.data_append, String.data_append]
    rfl
  constructor
  · apply String.ext
    show stripAnsiAux false ("\x1b[" ++ code ++ "m").data = "".data
    rw [hdata]
    show stripAnsiAux false ('\x1b' :: '[' :: (code.data ++ ['m'])) = []
    have e1 : stripAnsiAux false ('\x1b' :: '[' :: (code.data ++ ['m'])) =
        stripAnsiAux true (code.data ++ ['m']) := by
      simp [stripAnsiAux, ansiEmit, ansiStep]
    rw [e1, h1]
  · show ansiState false ("\x1b[" ++ code ++ "m").data = false
    rw [hdata]
    have e1 : ansiState false ('\x1b' :: '[' :: (code.data ++ ['m'])) =
        ansiState true (code.data ++ ['m']) := by
      simp [ansiState, ansiStep]
    rw [e1, h2]

theorem stripAnsi_empty : stripAnsi "" = "" := rfl

theorem ansiClosed_empty : ansiClosed "" := rfl

theorem stripAnsi_styleCode (fg : Option Nat) (b : Bool) (t : String)
    (ht : noEsc t) :
    stripAnsi (styleCode fg b t) = t ∧ ansiClosed (styleCode fg b t) := by
  have hpre : ∀ p : String, (match fg with
        | some c => "\x1b[" ++ toString c ++ "m"
        | none => "") = p →
      stripAnsi p = "" ∧ ansiClosed p := by
    intro p hp
    match fg with
    | none => rw [← hp]; exact ⟨stripAnsi_empty, ansiClosed_empty⟩
    | some c =>
      rw [← hp]
      exact stripAnsi_escape (toString c) (fun x hx => (repr_ok c x hx).2)
  obtain ⟨hp1, hp2⟩ := hpre _ rfl
  have hbold : stripAnsi (if b then "\x1b[1m" else "") = "" ∧
      ansiClosed (if b then "\x1b[1m" else "") := by
    cases b
    · exact ⟨stripAnsi_empty, ansiClosed_empty⟩
    · have e : ("\x1b[1m" : String) = "\x1b[" ++ "1" ++ "m" := rfl
      simp only [if_pos, e]
      exact stripAnsi_escape "1" (by decide)
  have hreset : stripAnsi ("\x1b[0m" : String) = "" ∧
      ansiClosed ("\x1b[0m" : String) := by
    have e : ("\x1b[0m" : String) = "\x1b[" ++ "0" ++ "m" := rfl
    rw [e]
    exact stripAnsi_escape "0" (by decide)
  have ht1 := stripAnsi_of_noEsc t ht
  have ht2 := ansiClosed_of_noEsc t ht
  unfold styleCode
  constructor
  · rw [stripAnsi_append _ _ (ansiClosed_append _ _
        (ansiClosed_append _ _ hp2 hbold.2) ht2)]
    rw [stripAnsi_append _ _ (ansiClosed_append _ _ hp2 hbold.2)]
    rw [stripAnsi_append _ _ hp2]
    rw [hp1, hbold.1, ht1, hreset.1]
    rw [String.empty_append, String.empty_append, String.append_empty]
  · exact ansiClosed_append _ _ (ansiClosed_append _ _
      (ansiClosed_append _ _ hp2 hbold.2) ht2) hreset.2

end Black

namespace Black

theorem intercalate_go_append (s : String) :
    ∀ (xs : List String) (a b : String),
      String.intercalate.go (a ++ b) s xs = a ++ String.intercalate.go b s xs := by
  intro xs
  induction xs with
  | nil => intro a b; rfl
  | cons x xs ih =>
    intro a b
    show String.intercalate.go (a ++ b ++ s ++ x) s xs =
      a ++ String.intercalate.go (b ++ s ++ x) s xs
    have e : a ++ b ++ s ++ x = a ++ (b ++ s ++ x) := by
      rw [String.append_assoc a b s, String.append_assoc a (b ++ s) x]
    rw [e, ih]

theorem intercalate_cons₂ (s a b : String) (l : List String) :
    String.intercalate s (a :: b :: l) =
      a ++ s ++ String.intercalate s (b :: l) := by
  show String.intercalate.go (a ++ s ++ b) s l =
    a ++ s ++ String.intercalate.go b s l
  rw [String.append_assoc a s b, intercalate_go_append s l a (s ++ b),
    intercalate_go_append s l s b, ← String.append_assoc]

theorem noEsc_comma : noEsc ", " := by decide

theorem strip_intercalate :
    ∀ l : List String, (∀ x ∈ l, ansiClosed x) →
      stripAnsi (String.intercalate ", " l) =
        String.intercalate ", " (l.map stripAnsi) ∧
      ansiClosed (String.intercalate ", " l) := by
  intro l
  induction l with
  | nil => intro _; exact ⟨rfl, rfl⟩
  | cons a l ih =>
    intro h
    have ha : ansiClosed a := h a (List.mem_cons_self a l)
    have hl := ih (fun x hx => h x (List.mem_cons_of_mem a hx))
    cases l with
    | nil => exact ⟨rfl, ha⟩
    | cons b m =>
      have hc : ansiClosed (a ++ ", ") :=
        ansiClosed_append a ", " ha (ansiClosed_of_noEsc ", " noEsc_comma)
      constructor
      · rw [intercalate_cons₂, stripAnsi_append _ _ hc,
          stripAnsi_append _ _ ha, stripAnsi_of_noEsc ", " noEsc_comma,
          hl.1]
        simp only [List.map_cons]
        rw [intercalate_cons₂ ", " (stripAnsi a) (stripAnsi b) (m.map stripAnsi)]
      · rw [intercalate_cons₂]
        exact ansiClosed_append _ _ hc hl.2

theorem mem_ite_singleton {α : Type} {p : Prop} [Decidable p] {a x : α}
    (hx : x ∈ (if p then [a] else [])) : x = a := by
  split at hx
  · simpa using hx
  · cases hx

theorem ite_singleton_congr {α : Type} (p : Prop) [Decidable p] (a b : α)
    (h : p → a = b) : (if p then [a] else []) = (if p then [b] else []) := by
  split
  · rw [h (by assumption)]
  · rfl

theorem noEsc_append (s t : String) (hs : noEsc s) (ht : noEsc t) :
    noEsc (s ++ t) := by
  intro c hc
  rw [String.data_append] at hc
  rcases List.mem_append.mp hc with h | h
  · exact hs c h
  · exact ht c h

end Black

namespace Black

theorem noEsc_plural (n : Nat) : noEsc (if n > 1 then "s" else "") := by
  split
  · decide
  · decide

theorem noEsc_countText (n : Nat) :
    noEsc (toString n ++ " file" ++ (if n > 1 then "s" else "") ++ " ") :=
  noEsc_append _ _ (noEsc_append _ _
    (noEsc_append _ _ (noEsc_toString n) (by decide)) (noEsc_plural n))
    (by decide)

theorem clause_text (n : Nat) (verb : String) (hn : ¬ n = 0) :
    toString n ++ " file" ++ (if n > 1 then "s" else "") ++ " " ++ verb =
      specClause n verb := by
  unfold specClause
  match n, hn with
  | 1, _ =>
    rw [if_neg (by decide : ¬ (1:Nat) > 1), if_pos (rfl : (1:Nat) = 1)]
    have e : toString (1:Nat) ++ " file" ++ "" ++ " " = ("1 file" : String) ++ " " := by
      decide
    exact congrArg (fun x => x ++ verb) e
  | n+2, _ =>
    rw [if_pos (by omega : n+2 > 1), if_neg (by omega : ¬ n+2 = 1)]
    have e : toString (n+2) ++ " file" ++ "s" = toString (n+2) ++ " files" := by
      rw [String.append_assoc]
      exact congrArg (fun x => toString (n+2) ++ x)
        (by decide : " file" ++ "s" = (" files" : String))
    rw [e]

theorem strip_clause_changed (n : Nat) (verb : String) (hv : noEsc verb) :
    stripAnsi (styleCode (some 34) true
        (toString n ++ " file" ++ (if n > 1 then "s" else "") ++ " ")
      ++ styleCode none true verb) =
      toString n ++ " file" ++ (if n > 1 then "s" else "") ++ " " ++ verb ∧
    ansiClosed (styleCode (some 34) true
        (toString n ++ " file" ++ (if n > 1 then "s" else "") ++ " ")
      ++ styleCode none true verb) := by
  obtain ⟨s1, c1⟩ := stripAnsi_styleCode (some 34) true _ (noEsc_countText n)
  obtain ⟨s2, c2⟩ := stripAnsi_styleCode none true verb hv
  refine ⟨?_, ansiClosed_append _ _ c1 c2⟩
  rw [stripAnsi_append _ _ c1, s1, s2]

theorem strip_clause_unchanged (n : Nat) (verb : String) (hv : noEsc verb) :
    stripAnsi (styleCode (some 34) false
        (toString n ++ " file" ++ (if n > 1 then "s" else "") ++ " ")
      ++ verb) =
      toString n ++ " file" ++ (if n > 1 then "s" else "") ++ " " ++ verb ∧
    ansiClosed (styleCode (some 34) false
        (toString n ++ " file" ++ (if n > 1 then "s" else "") ++ " ")
      ++ verb) := by
  obtain ⟨s1, c1⟩ := stripAnsi_styleCode (some 34) false _ (noEsc_countText n)
  refine ⟨?_, ansiClosed_append _ _ c1 (ansiClosed_of_noEsc verb hv)⟩
  rw [stripAnsi_append _ _ c1, s1, stripAnsi_of_noEsc verb hv]

theorem strip_clause_single (fg : Option Nat) (b : Bool) (n : Nat)
    (verb : String) (hv : noEsc verb) :
    stripAnsi (styleCode fg b
        (toString n ++ " file" ++ (if n > 1 then "s" else "") ++ " " ++ verb)) =
      toString n ++ " file" ++ (if n > 1 then "s" else "") ++ " " ++ verb ∧
    ansiClosed (styleCode fg b
        (toString n ++ " file" ++ (if n > 1 then "s" else "") ++ " " ++ verb)) :=
  stripAnsi_styleCode fg b _
    (noEsc_append _ _ (noEsc_countText n) hv)

theorem strip_sentence (rv uv fv : String) (hrv : noEsc rv) (huv : noEsc uv)
    (hfv : noEsc fv) (nc ns nf : Nat) :
    stripAnsi (String.intercalate ", "
      ((if nc ≠ 0 then
          [styleCode (some 34) true
              (toString nc ++ " file" ++ (if nc > 1 then "s" else "") ++ " ")
            ++ styleCode none true rv]
        else []) ++
       (if ns ≠ 0 then
          [styleCode (some 34) false
              (toString ns ++ " file" ++ (if ns > 1 then "s" else "") ++ " ")
            ++ uv]
        else []) ++
       (if nf ≠ 0 then
          [styleCode (some 31) false
              (toString nf ++ " file" ++ (if nf > 1 then "s" else "") ++ " " ++ fv)]
        else [])) ++ ".") =
    String.intercalate ", "
      ((if nc ≠ 0 then [specClause nc rv] else []) ++
       (if ns ≠ 0 then [specClause ns uv] else []) ++
       (if nf ≠ 0 then [specClause nf fv] else [])) ++ "." := by
  have hmem : ∀ x ∈
      ((if nc ≠ 0 then
          [styleCode (some 34) true
              (toString nc ++ " file" ++ (if nc > 1 then "s" else "") ++ " ")
            ++ styleCode none true rv]
        else []) ++
       (if ns ≠ 0 then
          [styleCode (some 34) false
              (toString ns ++ " file" ++ (if ns > 1 then "s" else "") ++ " ")
            ++ uv]
        else []) ++
       (if nf ≠ 0 then
          [styleCode (some 31) false
              (toString nf ++ " file" ++ (if nf > 1 then "s" else "") ++ " " ++ fv)]
        else [])), ansiClosed x := by
    intro x hx
    rcases List.mem_append.mp hx with hx | hx
    · rcases List.mem_append.mp hx with hx | hx
      · rw [mem_ite_singleton hx]
        exact (strip_clause_changed nc rv hrv).2
      · rw [mem_ite_singleton hx]
        exact (strip_clause_unchanged ns uv huv).2
    · rw [mem_ite_singleton hx]
      exact (strip_clause_single (some 31) false nf fv hfv).2
  have h1 := strip_intercalate _ hmem
  rw [stripAnsi_append _ _ h1.2, h1.1,
    stripAnsi_of_noEsc "." (by decide)]
  refine congrArg (fun x => x ++ ".") ?_
  refine congrArg (String.intercalate ", ") ?_
  simp only [List.map_append, apply_ite (List.map stripAnsi), List.map_cons,
    List.map_nil]
  refine congrArg₂ (· ++ ·) (congrArg₂ (· ++ ·) ?_ ?_) ?_
  · exact ite_singleton_congr _ _ _ (fun hp => by
      rw [(strip_clause_changed nc rv hrv).1, clause_text nc rv hp])
  · exact ite_singleton_congr _ _ _ (fun hp => by
      rw [(strip_clause_unchanged ns uv huv).1, clause_text ns uv hp])
  · exact ite_singleton_congr _ _ _ (fun hp => by
      rw [(strip_clause_single (some 31) false nf fv hfv).1,
        clause_text nf fv hp])

end Black

namespace Black

theorem strip_sentence_summary (rv uv fv : String) (hrv : noEsc rv)
    (huv : noEsc uv) (hfv : noEsc fv) (nc ns nf : Nat) :
    stripAnsi (String.intercalate ", "
      ((if nc ≠ 0 then
          [styleCode none true
              (toString nc ++ " file" ++ (if nc > 1 then "s" else "") ++ " " ++ rv)]
        else []) ++
       (if ns ≠ 0 then
          [toString ns ++ " file" ++ (if ns > 1 then "s" else "") ++ " " ++ uv]
        else []) ++
       (if nf ≠ 0 then
          [styleCode (some 31) false
              (toString nf ++ " file" ++ (if nf > 1 then "s" else "") ++ " " ++ fv)]
        else [])) ++ ".") =
    String.intercalate ", "
      ((if nc ≠ 0 then [specClause nc rv] else []) ++
       (if ns ≠ 0 then [specClause ns uv] else []) ++
       (if nf ≠ 0 then [specClause nf fv] else [])) ++ "." := by
  have hplain : noEsc
      (toString ns ++ " file" ++ (if ns > 1 then "s" else "") ++ " " ++ uv) :=
    noEsc_append _ _ (noEsc_countText ns) huv
  have hmem : ∀ x ∈
      ((if nc ≠ 0 then
          [styleCode none true
              (toString nc ++ " file" ++ (if nc > 1 then "s" else "") ++ " " ++ rv)]
        else []) ++
       (if ns ≠ 0 then
          [toString ns ++ " file" ++ (if ns > 1 then "s" else "") ++ " " ++ uv]
        else []) ++
       (if nf ≠ 0 then
          [styleCode (some 31) false
              (toString nf ++ " file" ++ (if nf > 1 then "s" else "") ++ " " ++ fv)]
        else [])), ansiClosed x := by
    intro x hx
    rcases List.mem_append.mp hx with hx | hx
    · rcases List.mem_append.mp hx with hx | hx
      · rw [mem_ite_singleton hx]
        exact (strip_clause_single none true nc rv hrv).2
      · rw [mem_ite_singleton hx]
        exact ansiClosed_of_noEsc _ hplain
    · rw [mem_ite_singleton hx]
      exact (strip_clause_single (some 31) false nf fv hfv).2
  have h1 := strip_intercalate _ hmem
  rw [stripAnsi_append _ _ h1.2, h1.1,
    stripAnsi_of_noEsc "." (by decide)]
  refine congrArg (fun x => x ++ ".") ?_
  refine congrArg (String.intercalate ", ") ?_
  simp only [List.map_append, apply_ite (List.map stripAnsi), List.map_cons,
    List.map_nil]
  refine congrArg₂ (· ++ ·) (congrArg₂ (· ++ ·) ?_ ?_) ?_
  · exact ite_singleton_congr _ _ _ (fun hp => by
      rw [(strip_clause_single none true nc rv hrv).1, clause_text nc rv hp])
  · exact ite_singleton_congr _ _ _ (fun hp => by
      rw [stripAnsi_of_noEsc _ hplain, clause_text ns uv hp])
  · exact ite_singleton_congr _ _ _ (fun hp => by
      rw [(strip_clause_single (some 31) false nf fv hfv).1,
        clause_text nf fv hp])

theorem noEsc_verb_change (b : Bool) :
    noEsc (if b then "would be reformatted" else "reformatted") := by
  split
  · decide
  · decide

theorem noEsc_verb_same (b : Bool) :
    noEsc (if b then "would be left unchanged" else "left unchanged") := by
  split
  · decide
  · decide

theorem noEsc_verb_fail (b : Bool) :
    noEsc (if b then "would fail to reformat" else "failed to reformat") := by
  split
  · decide
  · decide

theorem stripRender (r : Report) :
    stripAnsi r.render =
      specSentence r.check r.diff r.change_count r.same_count r.failure_count :=
  strip_sentence _ _ _ (noEsc_verb_change (r.check || r.diff))
    (noEsc_verb_same (r.check || r.diff)) (noEsc_verb_fail (r.check || r.diff))
    r.change_count r.same_count r.failure_count

theorem stripSummary (j : JunitReport) :
    stripAnsi j.summary =
      specSentence j.check j.diff j.change_count j.same_count j.failure_count :=
  strip_sentence_summary _ _ _ (noEsc_verb_change (j.check || j.diff))
    (noEsc_verb_same (j.check || j.diff)) (noEsc_verb_fail (j.check || j.diff))
    j.change_count j.same_count j.failure_count

end Black

namespace Black

theorem Report.run_counts (calls : List Call) : ∀ r : Report,
    ((r.run calls).change_count + (r.run calls).same_count =
      r.change_count + r.same_count + calls.countP Call.isDone) ∧
    ((r.run calls).failure_count =
      r.failure_count + calls.countP Call.isFailed) ∧
    r.change_count ≤ (r.run calls).change_count ∧
    r.same_count ≤ (r.run calls).same_count ∧
    r.failure_count ≤ (r.run calls).failure_count := by
  induction calls with
  | nil => intro r; simp [Report.run]
  | cons c cs ih =>
    intro r
    obtain ⟨h1, h2, h3, h4, h5⟩ := ih (r.step c)
    have hrw : r.run (c :: cs) = (r.step c).run cs := rfl
    rw [hrw]
    cases c with
    | done src ch =>
      cases ch <;>
        simp [Report.step, Report.done, List.countP_cons, Call.isDone,
          Call.isFailed] at h1 h2 h3 h4 h5 ⊢ <;>
        omega
    | failed s m =>
      simp [Report.step, Report.failed, List.countP_cons, Call.isDone,
        Call.isFailed] at h1 h2 h3 h4 h5 ⊢
      omega
    | path_ignored p m =>
      simp [Report.step, Report.path_ignored, List.countP_cons,
        Call.isDone, Call.isFailed] at h1 h2 h3 h4 h5 ⊢
      omega

end Black

namespace Black

theorem JunitReport.step_spec (j : JunitReport) (c : Call) :
    ((j.step c).change_count = j.change_count ∨ (j.step c).change_count = 1) ∧
    ((j.step c).same_count = j.same_count ∨ (j.step c).same_count = 1) ∧
    ((j.step c).failure_count = j.failure_count ∨
      (j.step c).failure_count = 1) ∧
    ((j.step c).skipped_count = j.skipped_count +
      (if j.verbose && c.isIgnored then 1 else 0)) ∧
    (j.step c).verbose = j.verbose := by
  cases c with
  | done src ch =>
    cases ch
    case NO => simp [JunitReport.step, JunitReport.done, Call.isIgnored]
    case CACHED => simp [JunitReport.step, JunitReport.done, Call.isIgnored]
    case YES =>
      simp only [JunitReport.step, JunitReport.done, reduceCtorEq, if_pos]
      split <;> simp [Call.isIgnored]
  | failed s m => simp [JunitReport.step, JunitReport.failed, Call.isIgnored]
  | path_ignored p m =>
    simp only [JunitReport.step, JunitReport.path_ignored]
    split <;> simp_all [Call.isIgnored]

theorem JunitReport.run_clamped (calls : List Call) : ∀ j : JunitReport,
    ((j.run calls).change_count = j.change_count ∨
      (j.run calls).change_count = 1) ∧
    ((j.run calls).same_count = j.same_count ∨
      (j.run calls).same_count = 1) ∧
    ((j.run calls).failure_count = j.failure_count ∨
      (j.run calls).failure_count = 1) ∧
    ((j.run calls).skipped_count = j.skipped_count +
      (if j.verbose then calls.countP Call.isIgnored else 0)) ∧
    (j.run calls).verbose = j.verbose := by
  induction calls with
  | nil => intro j; simp [JunitReport.run]
  | cons c cs ih =>
    intro j
    obtain ⟨s1, s2, s3, s4, s5⟩ := JunitReport.step_spec j c
    obtain ⟨r1, r2, r3, r4, r5⟩ := ih (j.step c)
    have hrw : j.run (c :: cs) = (j.step c).run cs := rfl
    rw [hrw]
    refine ⟨?_, ?_, ?_, ?_, ?_⟩
    · rcases r1 with h | h
      · rw [h]; exact s1
      · exact Or.inr h
    · rcases r2 with h | h
      · rw [h]; exact s2
      · exact Or.inr h
    · rcases r3 with h | h
      · rw [h]; exact s3
      · exact Or.inr h
    · rw [r4, s4, s5, List.countP_cons]
      cases hv : j.verbose <;> cases hi : c.isIgnored <;>
        (simp [hv, hi]; try omega)
    · rw [r5, s5]

theorem JunitReport.step_failure (j : JunitReport) (c : Call) :
    (j.step c).failure_count = if c.isFailed then 1 else j.failure_count := by
  cases c with
  | done src ch =>
    cases ch
    case NO => simp [JunitReport.step, JunitReport.done, Call.isFailed]
    case CACHED => simp [JunitReport.step, JunitReport.done, Call.isFailed]
    case YES =>
      simp only [JunitReport.step, JunitReport.done, reduceCtorEq, if_pos]
      split <;> simp [Call.isFailed]
  | failed s m => simp [JunitReport.step, JunitReport.failed, Call.isFailed]
  | path_ignored p m =>
    simp only [JunitReport.step, JunitReport.path_ignored]
    split <;> simp [Call.isFailed]

theorem JunitReport.run_failure_ne (calls : List Call) : ∀ j : JunitReport,
    ((∃ c ∈ calls, c.isFailed = true) ∨ ¬ j.failure_count = 0) →
    ¬ (j.run calls).failure_count = 0 := by
  induction calls with
  | nil =>
    intro j h
    rcases h with ⟨c, hc, _⟩ | h
    · cases hc
    · exact h
  | cons c cs ih =>
    intro j h
    have hrw : j.run (c :: cs) = (j.step c).run cs := rfl
    rw [hrw]
    apply ih
    cases hf : c.isFailed with
    | true =>
      right
      rw [JunitReport.step_failure, hf]
      simp
    | false =>
      rcases h with ⟨x, hx, hfx⟩ | hne
      · rcases List.mem_cons.mp hx with rfl | hx
        · rw [hf] at hfx; cases hfx
        · exact Or.inl ⟨x, hx, hfx⟩
      · right
        rw [JunitReport.step_failure, hf]
        simpa using hne

end Black

namespace Black

/-- Claim C1: for both Report and JunitReport, return_code is a pure
function of the failure and change counters and the check flag with the
priority ordering 123 over 1 over 0, and every call sequence containing at
least one failed call yields return_code 123 regardless of the other
recorded outcomes. -/
theorem C1_exit_code_priority :
    (∀ r : Report,
      r.return_code = specExitCode r.failure_count r.change_count r.check) ∧
    (∀ j : JunitReport,
      j.return_code = specExitCode j.failure_count j.change_count j.check) ∧
    (∀ (check diff quiet verbose : Bool) (calls : List Call),
      (∃ c ∈ calls, c.isFailed = true) →
      ((mkReport check diff quiet verbose).run calls).return_code = 123 ∧
      ((mkJunitReport check diff quiet verbose).run calls).return_code = 123) := by
  refine ⟨?_, ?_, ?_⟩
  · intro r
    simp only [Report.return_code, specExitCode, gt_iff_lt, Nat.pos_iff_ne_zero]
  · intro j
    simp only [JunitReport.return_code, specExitCode, gt_iff_lt,
      Nat.pos_iff_ne_zero]
  · intro check diff quiet verbose calls hex
    constructor
    · have h2 := (Report.run_counts calls (mkReport check diff quiet verbose)).2.1
      have hpos : 0 < calls.countP Call.isFailed := List.countP_pos_iff.mpr hex
      have hne :
          ¬ ((mkReport check diff quiet verbose).run calls).failure_count
            = 0 := by
        rw [h2]
        have h0 : (mkReport check diff quiet verbose).failure_count = 0 := rfl
        omega
      simp [Report.return_code, hne]
    · have hne := JunitReport.run_failure_ne calls
        (mkJunitReport check diff quiet verbose) (Or.inl hex)
      simp [JunitReport.return_code, hne]

/-- Witness for C1: on a concrete sequence with one failed call between two
done calls, both accumulators report exit code 123. -/
theorem C1_exit_code_priority_witness :
    ((mkReport true false false false).run
      [Call.done "a.py" Changed.YES, Call.failed "c.py" "boom",
       Call.done "b.py" Changed.NO]).return_code = 123 ∧
    ((mkJunitReport true false false false).run
      [Call.done "a.py" Changed.YES, Call.failed "c.py" "boom",
       Call.done "b.py" Changed.NO]).return_code = 123 :=
  C1_exit_code_priority.2.2 true false false false
    [Call.done "a.py" Changed.YES, Call.failed "c.py" "boom",
     Call.done "b.py" Changed.NO]
    ⟨Call.failed "c.py" "boom", by decide, rfl⟩

/-- Claim C2 counterexample: recording a Changed outcome on a fresh
JunitReport appends a failure fragment whose message attribute is exactly
the verb with no occurrence of the path in it, contradicting the claim
that the message is the verb followed by the path. -/
theorem C2_counterexample :
    ((mkJunitReport false false false false).done "a.py" Changed.YES).tests =
      [JunitReport.FAIL_MSG "a.py" "reformatted"] ∧
    failureMessageOf (JunitReport.FAIL_MSG "a.py" "reformatted") =
      "reformatted" ∧
    findAfter "a.py".data
      (failureMessageOf (JunitReport.FAIL_MSG "a.py" "reformatted")).data =
      none :=
  ⟨rfl, by decide, by decide⟩

/-- Claim C2 (amended): when verbose or not quiet, recording a Changed
outcome appends a failure fragment whose message attribute is just
would reformat or reformatted per checkMode or diffMode, without the path;
the path appears only in the file and name attributes of the fragment. -/
theorem C2_fail_fragment (j : JunitReport) (p : String)
    (h : (j.verbose || !j.quiet) = true) :
    (j.done p Changed.YES).tests = j.tests ++
      [JunitReport.FAIL_MSG p
        (if j.check || j.diff then "would reformat" else "reformatted")] ∧
    (j.done p Changed.YES).change_count = 1 ∧
    failureMessageOf (JunitReport.FAIL_MSG "a.py" "reformatted") =
      "reformatted" ∧
    failureMessageOf (JunitReport.FAIL_MSG "a.py" "would reformat") =
      "would reformat" := by
  refine ⟨?_, ?_, by decide, by decide⟩ <;> simp [JunitReport.done, h]

/-- Witness for the amended C2: on a fresh non-quiet report, one Changed
outcome appends exactly the reformatted failure fragment. -/
theorem C2_fail_fragment_witness :
    ((mkJunitReport false false false false).done "b.py" Changed.YES).tests =
      [JunitReport.FAIL_MSG "b.py" "reformatted"] :=
  ((C2_fail_fragment (mkJunitReport false false false false) "b.py" rfl).1).trans
    (by decide)

/-- Claim C3 counterexample: the pass fragment appended for an Unchanged
outcome contains no occurrence of the Unchanged message phrasing at all;
the pass template has no message placeholder. -/
theorem C3_counterexample :
    ((mkJunitReport false false false false).done "a.py" Changed.NO).tests =
      [JunitReport.PASS_MSG "a.py" "a.py already well formatted, good job."] ∧
    findAfter "already well formatted".data
      (JunitReport.PASS_MSG "a.py"
        "a.py already well formatted, good job.").data = none :=
  ⟨rfl, by decide⟩

/-- Claim C3 (amended): for every non-Changed outcome a pass fragment is
always appended regardless of verbose and quiet and same_count is set to 1,
but the fragment carries no message text: the pass template ignores the
message argument entirely. -/
theorem C3_pass_fragment (j : JunitReport) (p : String) :
    ((j.done p Changed.NO).tests = j.tests ++
        [JunitReport.PASS_MSG p (p ++ " already well formatted, good job.")] ∧
      (j.done p Changed.NO).same_count = 1) ∧
    ((j.done p Changed.CACHED).tests = j.tests ++
        [JunitReport.PASS_MSG p
          (p ++ " wasn\x27t modified on disk since last run.")] ∧
      (j.done p Changed.CACHED).same_count = 1) ∧
    (∀ m₁ m₂ : String, JunitReport.PASS_MSG p m₁ = JunitReport.PASS_MSG p m₂) := by
  refine ⟨⟨?_, ?_⟩, ⟨?_, ?_⟩, fun m₁ m₂ => rfl⟩ <;> simp [JunitReport.done]

/-- Claim C4: the JUnit rendering is a single testsuite element whose
failures attribute is change_count, errors is failure_count, skipped is
skipped_count, tests is the sum of the four counters, and whose body is the
concatenation of the appended fragments in append order. -/
theorem C4_junit_render (j : JunitReport) :
    j.render = specTestsuite j.change_count j.same_count j.failure_count
      j.skipped_count j.tests := rfl

/-- Claim C5: on a fresh JunitReport, after any call sequence the change,
same and failure counters stay in the set of 0 and 1, the skipped counter
equals the number of ignored calls exactly when verbose (else 0), and with
verbose false a further ignored call changes nothing. -/
theorem C5_junit_counters (check diff quiet verbose : Bool)
    (calls : List Call) :
    ((mkJunitReport check diff quiet verbose).run calls).change_count ≤ 1 ∧
    ((mkJunitReport check diff quiet verbose).run calls).same_count ≤ 1 ∧
    ((mkJunitReport check diff quiet verbose).run calls).failure_count ≤ 1 ∧
    ((mkJunitReport check diff quiet verbose).run calls).skipped_count =
      (if verbose then calls.countP Call.isIgnored else 0) ∧
    ∀ p m : String,
      (((mkJunitReport check diff quiet false).run calls).path_ignored p m) =
        (mkJunitReport check diff quiet false).run calls := by
  obtain ⟨r1, r2, r3, r4, r5⟩ :=
    JunitReport.run_clamped calls (mkJunitReport check diff quiet verbose)
  obtain ⟨u1, u2, u3, u4, q5⟩ :=
    JunitReport.run_clamped calls (mkJunitReport check diff quiet false)
  refine ⟨?_, ?_, ?_, ?_, ?_⟩
  · rcases r1 with h | h
    · rw [h]; exact Nat.zero_le 1
    · rw [h]
  · rcases r2 with h | h
    · rw [h]; exact Nat.zero_le 1
    · rw [h]
  · rcases r3 with h | h
    · rw [h]; exact Nat.zero_le 1
    · rw [h]
  · simpa [mkJunitReport] using r4
  · intro p m
    have hv : ((mkJunitReport check diff quiet false).run calls).verbose
        = false := by
      simpa [mkJunitReport] using q5
    simp [JunitReport.path_ignored, hv]

/-- Claim C6: on a Report, change_count plus same_count grows by exactly the
number of done calls, failure_count by exactly the number of failed calls,
all three counters are monotonically non-decreasing, and path_ignored
changes no counter. -/
theorem C6_summary_counters (r : Report) (calls : List Call) :
    ((r.run calls).change_count + (r.run calls).same_count =
      r.change_count + r.same_count + calls.countP Call.isDone) ∧
    ((r.run calls).failure_count =
      r.failure_count + calls.countP Call.isFailed) ∧
    r.change_count ≤ (r.run calls).change_count ∧
    r.same_count ≤ (r.run calls).same_count ∧
    r.failure_count ≤ (r.run calls).failure_count ∧
    ∀ p m : String, r.path_ignored p m = r := by
  obtain ⟨h1, h2, h3, h4, h5⟩ := Report.run_counts calls r
  exact ⟨h1, h2, h3, h4, h5, fun p m => rfl⟩

/-- Claim C7: stripped of terminal styling, the Report rendering is exactly
the one-sentence summary worded by the spec: clauses in the order changed,
unchanged, failed, zero clauses omitted, 1 file versus N files
pluralization, verb phrases selected by check or diff mode, ending with a
period. -/
theorem C7_render_sentence (r : Report) :
    stripAnsi r.render =
      specSentence r.check r.diff r.change_count r.same_count r.failure_count :=
  stripRender r

/-- Claim C8: for equal flags and counters, JunitReport.summary and
Report render produce the same unstyled text. -/
theorem C8_summary_matches_render (j : JunitReport) :
    stripAnsi j.summary = stripAnsi (Report.render
      ⟨j.check, j.diff, j.quiet, j.verbose, j.change_count, j.same_count,
        j.failure_count⟩) := by
  rw [stripSummary, stripRender]

/-- Claim C9: with quiet true and verbose false, a Changed outcome sets
change_count to 1 but appends no fragment, so the rendered document counts
one test with an empty body (tests attribute exceeds the fragment count)
and return_code is 1 in check mode although no failure case appears in the
body. -/
theorem C9_quiet_changed_uncounted :
    ((mkJunitReport true false true false).done "a.py" Changed.YES).change_count
      = 1 ∧
    ((mkJunitReport true false true false).done "a.py" Changed.YES).tests
      = [] ∧
    ((mkJunitReport true false true false).done "a.py" Changed.YES).tests.length
      < ((mkJunitReport true false true false).done "a.py"
          Changed.YES).change_count +
        ((mkJunitReport true false true false).done "a.py"
          Changed.YES).same_count +
        ((mkJunitReport true false true false).done "a.py"
          Changed.YES).failure_count +
        ((mkJunitReport true false true false).done "a.py"
          Changed.YES).skipped_count ∧
    ((mkJunitReport true false true false).done "a.py" Changed.YES).render =
      specTestsuite 1 0 0 0 [] ∧
    ((mkJunitReport true false true false).done "a.py" Changed.YES).return_code
      = 1 :=
  ⟨rfl, rfl, by decide, by decide, rfl⟩

/-- Claim C10: on a freshly constructed accumulator with all counters zero,
both the Report rendering and the JunitReport summary are the lone period
with no clauses. -/
theorem C10_fresh_render_dot (check diff quiet verbose : Bool) :
    (mkReport check diff quiet verbose).render = "." ∧
    (mkJunitReport check diff quiet verbose).summary = "." :=
  ⟨rfl, rfl⟩

end Black
